import Mathlib

/-!
Shallow embedding of the Yale football schedule scraper (src/Script.py) in Lean 4.

The Python program fetches an ESPN schedule page, extracts per-row date, time,
opponent, home/away, location and broadcast text, normalizes date/time text into
datetimes (`parse_date_time`), deduplicates the resulting game records, and
writes an iCalendar file (`create_calendar`, called from `update_calendar`).

Conventions of the embedding:
- Python strings are Lean `String`s (operated on through their `List Char` data
  where convenient); all text handled by the program is ASCII, so per-character
  `Char.toLower`/`Char.toUpper` model Python `str.lower`/`str.upper`.
- Python `int(...)` is `py_int : String → Option Int` (strip, optional sign,
  decimal digits; failure = the `ValueError` that the scraper catches).
- The specific regular expressions used by the script are reimplemented as
  dedicated searchers over `List Char` with Python `re.search` semantics
  (leftmost match; for these particular patterns greedy matching without
  backtracking coincides with Python's backtracking behavior).
- Fallible Python code that the scraper catches (`try/except` returning `None`
  or skipping a row) is modelled with `Option`.
-/

/-! ### Small character/string utilities -/

def digit_val (c : Char) : Nat := c.toNat - '0'.toNat

/-- Python `str.lower` (all text handled by the scraper is ASCII). -/
def to_lower (s : String) : String := ⟨s.data.map Char.toLower⟩

/-- Python `str.upper`. -/
def to_upper (s : String) : String := ⟨s.data.map Char.toUpper⟩

/-- Python `str.strip()`. -/
def trim_str (s : String) : String :=
  ⟨((s.data.dropWhile (·.isWhitespace)).reverse.dropWhile (·.isWhitespace)).reverse⟩

/-- Python `str.split(sep)` for a one-character separator. -/
def split_on (sep : Char) : List Char → List (List Char)
  | [] => [[]]
  | a :: rest =>
    match split_on sep rest with
    | r :: rs => if a = sep then [] :: r :: rs else (a :: r) :: rs
    | [] => [[]]

def split_ch (sep : Char) (s : String) : List String :=
  (split_on sep s.data).map (fun cs => ⟨cs⟩)

def digits_val (ds : List Char) : Nat := ds.foldl (fun a c => 10 * a + digit_val c) 0

/-- Python regex word character `\w` (ASCII fragment). -/
def is_word (c : Char) : Bool := c.isAlphanum || c = '_'

/-- A word boundary `\b` holds after a word char when the rest starts with a
non-word char (or is the end of the string). -/
def bnd : List Char → Bool
  | [] => true
  | c :: _ => !(is_word c)

/-- First index at which `needle` occurs in `hay` (Python `str.find`). -/
def substr_pos (needle : List Char) : List Char → Option Nat
  | [] => if needle.isEmpty then some 0 else none
  | c :: t => if needle.isPrefixOf (c :: t) then some 0 else (substr_pos needle t).map (· + 1)

/-- Whether `needle` occurs in `hay` (Python `in` for strings). -/
def has_sub (needle : List Char) (s : String) : Bool := (substr_pos needle s.data).isSome

def insert_at (cs : List Char) (n : Nat) (c : Char) : List Char :=
  cs.take n ++ c :: cs.drop n

/-- Python `str.replace(ab, "")` for a two-character pattern: delete all
non-overlapping occurrences, scanning left to right. -/
def remove_pair (a b : Char) : List Char → List Char
  | [] => []
  | [c] => [c]
  | c :: c2 :: rest =>
    if c = a ∧ c2 = b then remove_pair a b rest
    else c :: remove_pair a b (c2 :: rest)

/-- Python `int(s)` on the strings this program feeds it: strip whitespace,
optional sign, one or more decimal digits; anything else raises (= `none`). -/
def py_int (s : String) : Option Int :=
  match (trim_str s).data with
  | '-' :: rest =>
    if rest ≠ [] ∧ rest.all (·.isDigit) then some (-(digits_val rest : Int)) else none
  | '+' :: rest =>
    if rest ≠ [] ∧ rest.all (·.isDigit) then some ((digits_val rest : Int)) else none
  | t => if t ≠ [] ∧ t.all (·.isDigit) then some ((digits_val t : Int)) else none

/-! ### The regular-expression searches used by `parse_date_time`

`Script.py` lines 170, 180, 129/135, 141. Each is reimplemented for its exact
pattern with `re.search` (leftmost-match) semantics. -/

/-- Match `(\d+:?\d*\s*[AP]M)` at the start of `cs`, returning the matched text. -/
def time_match_at (cs : List Char) : Option (List Char) :=
  let p1 := cs.span (·.isDigit)
  if p1.1.isEmpty then none else
  let p2 : List Char × List Char :=
    match p1.2 with
    | ':' :: t => ([':'], t)
    | r => ([], r)
  let p3 := p2.2.span (·.isDigit)
  let p4 := p3.2.span (·.isWhitespace)
  match p4.2 with
  | a :: 'M' :: _ =>
    if a = 'A' ∨ a = 'P' then some (p1.1 ++ p2.1 ++ p3.1 ++ p4.1 ++ [a, 'M']) else none
  | _ => none

/-- `re.search(r'(\d+:?\d*\s*[AP]M)', s)` (Script.py line 170). -/
def time_search : List Char → Option (List Char)
  | [] => none
  | c :: rest =>
    match time_match_at (c :: rest) with
    | some m => some m
    | none => time_search rest

/-- Match `(\d+)\s*[AP]M` at the start of `cs`, returning the digit group. -/
def hour_match_at (cs : List Char) : Option (List Char) :=
  let p1 := cs.span (·.isDigit)
  if p1.1.isEmpty then none else
  let p2 := p1.2.span (·.isWhitespace)
  match p2.2 with
  | a :: 'M' :: _ => if a = 'A' ∨ a = 'P' then some p1.1 else none
  | _ => none

/-- `re.search(r'(\d+)\s*[AP]M', s)` (Script.py line 180). -/
def hour_search : List Char → Option (List Char)
  | [] => none
  | c :: rest =>
    match hour_match_at (c :: rest) with
    | some m => some m
    | none => hour_search rest

/-- `re.search(r'\b(\d{1,2})\b', s)` (Script.py lines 129 and 135): leftmost
run of one or two digits delimited by word boundaries, as a number.
`prevW` records whether the character before the current position is a word
character (false at the start of the string). -/
def day_search (prevW : Bool) : List Char → Option Nat
  | [] => none
  | c :: rest =>
    (if !prevW && c.isDigit then
      match rest with
      | [] => some (digit_val c)
      | c2 :: rest2 =>
        if c2.isDigit then
          if bnd rest2 then some (10 * digit_val c + digit_val c2) else none
        else if !(is_word c2) then some (digit_val c)
        else none
     else none).orElse (fun _ => day_search (is_word c) rest)

/-- `re.search(r'\b(20\d{2})\b', s)` (Script.py line 141), as a number. -/
def year_search (prevW : Bool) : List Char → Option Nat
  | [] => none
  | c :: rest =>
    (if !prevW && c = '2' then
      match rest with
      | '0' :: d3 :: d4 :: rest2 =>
        if d3.isDigit ∧ d4.isDigit ∧ bnd rest2 then
          some (2000 + 10 * digit_val d3 + digit_val d4)
        else none
      | _ => none
     else none).orElse (fun _ => year_search (is_word c) rest)

/-! ### Datetimes (Python `datetime.datetime`) -/

structure DateTime where
  year : Int
  month : Int
  day : Int
  hour : Int
  minute : Int
deriving DecidableEq

def is_leap (y : Int) : Bool := (y % 4 = 0 ∧ y % 100 ≠ 0) ∨ y % 400 = 0

def days_in_month (y m : Int) : Int :=
  if m = 1 ∨ m = 3 ∨ m = 5 ∨ m = 7 ∨ m = 8 ∨ m = 10 ∨ m = 12 then 31
  else if m = 4 ∨ m = 6 ∨ m = 9 ∨ m = 11 then 30
  else if m = 2 then (if is_leap y then 29 else 28)
  else 0

/-- The component ranges accepted by `datetime.datetime(y, m, d, h, mi)`. -/
def datetime_ok (y m d h mi : Int) : Prop :=
  1 ≤ y ∧ y ≤ 9999 ∧ 1 ≤ m ∧ m ≤ 12 ∧ 1 ≤ d ∧ d ≤ days_in_month y m ∧
    0 ≤ h ∧ h ≤ 23 ∧ 0 ≤ mi ∧ mi ≤ 59

instance (y m d h mi : Int) : Decidable (datetime_ok y m d h mi) := by
  unfold datetime_ok; infer_instance

/-- `datetime.datetime(...)`: `none` models the `ValueError` it raises on
out-of-range components (caught by the scraper, which then returns `None`). -/
def mk_datetime (y m d h mi : Int) : Option DateTime :=
  if datetime_ok y m d h mi then some ⟨y, m, d, h, mi⟩ else none

def one_day (dt : DateTime) : DateTime :=
  if dt.day + 1 ≤ days_in_month dt.year dt.month then { dt with day := dt.day + 1 }
  else if dt.month + 1 ≤ 12 then { dt with month := dt.month + 1, day := 1 }
  else { dt with year := dt.year + 1, month := 1, day := 1 }

def advance_days (dt : DateTime) : Nat → DateTime
  | 0 => dt
  | n + 1 => advance_days (one_day dt) n

/-- `dt + datetime.timedelta(minutes = k)` for a valid `dt`. -/
def add_minutes (dt : DateTime) (k : Nat) : DateTime :=
  let total := dt.hour * 60 + dt.minute + (k : Int)
  let dt2 := advance_days dt (total / 1440).toNat
  { dt2 with hour := total % 1440 / 60, minute := total % 1440 % 60 }

/-! ### Time-of-day resolution (Script.py lines 164-195) -/

/-- Line 165: `if time_str and time_str.lower() not in ["tba", "tbd"]`. -/
def tba_guard (s : String) : Bool :=
  s ≠ "" && !(to_lower s == "tba" || to_lower s == "tbd")

/-- Lines 167-172: strip/uppercase, then narrow to the first
`\d+:?\d*\s*[AP]M` match when one exists. -/
def time_refined (s : String) : String :=
  let u := to_upper (trim_str s)
  match time_search u.data with
  | some m => ⟨m⟩
  | none => u

/-- Lines 174-185: extract (hour, minute) from the refined time text, before
any AM/PM adjustment. `none` models an uncaught `int()` failure inside this
block (propagated to the scraper's outer handler). -/
def time_hm_raw (u2 : String) : Option (Int × Int) :=
  if u2.data.contains ':' then
    let parts := split_ch ':' (trim_str ⟨remove_pair 'P' 'M' (remove_pair 'A' 'M' u2.data)⟩)
    match py_int (parts.getD 0 "") with
    | none => none
    | some h =>
      match (if 1 < parts.length then py_int (parts.getD 1 "") else some 0) with
      | none => none
      | some mi => some (h, mi)
  else
    match hour_search u2.data with
    | some ds => some ((digits_val ds : Int), 0)
    | none => some (13, 0)

/-- Lines 187-192: `if "PM" in time_str and hour < 12: hour += 12`, then
`if "AM" in time_str and hour == 12: hour = 0`. -/
def time_adjust (u2 : String) (h : Int) : Int :=
  let h1 := if has_sub ['P', 'M'] u2 ∧ h < 12 then h + 12 else h
  if has_sub ['A', 'M'] u2 ∧ h1 = 12 then 0 else h1

/-- The full time-resolution step of `parse_date_time` (lines 164-195):
`none` input models Python `None`. -/
def parse_time (t : Option String) : Option (Int × Int) :=
  match t with
  | none => some (13, 0)
  | some s =>
    if tba_guard s then
      match time_hm_raw (time_refined s) with
      | none => none
      | some (h, mi) => some (time_adjust (time_refined s) h, mi)
    else some (13, 0)

/-! ### Date-text cleanup and field extraction (Script.py lines 56-146) -/

def weekdays : List String :=
  ["monday", "tuesday", "wednesday", "thursday", "friday", "saturday", "sunday"]

/-- Lines 58-73: for the first weekday name found inside the lowered string
that is directly followed by a non-space character, insert a space after it
(fixes inputs like `"SaturdayNov 22"`); weekday occurrences already followed
by a space (or at the end) leave the loop running to the next weekday. -/
def weekday_fix_go : List String → String → String
  | [], s => s
  | d :: rest, s =>
    match substr_pos d.data (to_lower s).data with
    | none => weekday_fix_go rest s
    | some p =>
      let q := p + d.length
      if q < s.data.length then
        if s.data.getD q ' ' ≠ ' ' then ⟨insert_at s.data q ' '⟩
        else weekday_fix_go rest s
      else weekday_fix_go rest s

def weekday_fix (s : String) : String := weekday_fix_go weekdays s

/-- Lines 82-92 (Format 1, `MM/DD/YYYY`): split the stripped string on `/`;
`int()` failures leave the remaining components unset, exactly as the
caught `ValueError` does.  Returns `(month, day, year)`; a two-digit year
gets `2000` added (`if year < 100: year += 2000`). -/
def parse_slash (s : String) : Option Int × Option Int × Option Int :=
  let parts := split_ch '/' (trim_str s)
  match py_int (parts.getD 0 "") with
  | none => (none, none, none)
  | some m =>
    match py_int (parts.getD 1 "") with
    | none => (some m, none, none)
    | some d =>
      if 2 < parts.length ∧ trim_str (parts.getD 2 "") ≠ "" then
        match py_int (parts.getD 2 "") with
        | none => (some m, some d, none)
        | some y => (some m, some d, some (if y < 100 then y + 2000 else y))
      else (some m, some d, none)

/-- Lines 103-116, in Python dict insertion order. -/
def month_map : List (String × Int) :=
  [("january", 1), ("jan", 1), ("february", 2), ("feb", 2), ("march", 3), ("mar", 3),
   ("april", 4), ("apr", 4), ("may", 5), ("june", 6), ("jun", 6), ("july", 7), ("jul", 7),
   ("august", 8), ("aug", 8), ("september", 9), ("sep", 9), ("sept", 9),
   ("october", 10), ("oct", 10), ("november", 11), ("nov", 11), ("december", 12), ("dec", 12)]

/-- Lines 129-138: day number after the month name, else anywhere in the string. -/
def find_day (after whole : List Char) : Option Nat :=
  match day_search false after with
  | some d => some d
  | none => day_search false whole

/-- Lines 118-146 (Format 2, month-name): first month name contained in the
lowered string wins; the day is searched after it (then anywhere), the year
anywhere.  Returns `(month, day, year)`. -/
def parse_month_go : List (String × Int) → String → Option Int × Option Int × Option Int
  | [], _ => (none, none, none)
  | (name, num) :: rest, s =>
    match substr_pos name.data (to_lower s).data with
    | none => parse_month_go rest s
    | some p =>
      let after := s.data.drop (p + name.length)
      (some num, (find_day after s.data).map (Int.ofNat ·), (year_search false s.data).map (Int.ofNat ·))

def parse_month_name (s : String) : Option Int × Option Int × Option Int :=
  parse_month_go month_map s

/-- Lines 82-146: slash format when the (cleaned) text contains `/`,
month-name format otherwise. -/
def date_fields (ds : String) : Option Int × Option Int × Option Int :=
  if ds.data.contains '/' then parse_slash ds else parse_month_name ds

/-! ### `parse_date_time` (Script.py lines 38-213) -/

/-- Lines 44-52: the football season year from today's year and month. -/
def season_year (today_year today_month : Int) : Int :=
  if 2 ≤ today_month then today_year else today_year - 1

/-- Lines 150-160: year inference when the text carries none. -/
def infer_year (fsy m : Int) : Int :=
  if m = 4 then fsy + 1
  else if 8 ≤ m then fsy
  else fsy + 1

/-- `parse_date_time(date_str, time_str)` (lines 38-213).  The current date,
read via `datetime.datetime.now()` in Python, is passed in as
`(today_year, today_month)`.  `none` is the `return None` of line 213 (any
parse failure or invalid datetime). -/
def parse_date_time (today_year today_month : Int) (date_str : String)
    (time_str : Option String) : Option DateTime :=
  match date_fields (weekday_fix date_str) with
  | (some m, some d, y?) =>
    let y := match y? with
      | some y => y
      | none => infer_year (season_year today_year today_month) m
    match parse_time time_str with
    | some (h, mi) => mk_datetime y m d h mi
    | none => none
  | _ => none

/-! ### Structure detection (Script.py lines 243-289)

The parsed HTML document is abstracted to its selector interface: `select_one`
over table selectors and `select` over element selectors; a found table again
answers `select` for its rows.  The row-element type is a parameter, since the
detection logic never inspects the elements themselves. -/

structure HTable (α : Type) where
  select : String → List α

structure HDoc (α : Type) where
  select_one : String → Option (HTable α)
  select : String → List α

/-- Lines 250-256: `soup.select_one('table.Table')`, then its `tbody tr` rows. -/
def primary_items {α : Type} (doc : HDoc α) : List α :=
  match doc.select_one "table.Table" with
  | some t => t.select "tbody tr"
  | none => []

def alt_table_selectors : List String :=
  ["table.schedule-table", "table.schedule", ".Schedule__Table"]

/-- Lines 261-266: the loop breaks at the first selector whose table exists,
taking that table's rows (even when there are none). -/
def alt_table_go {α : Type} (doc : HDoc α) : List String → List α
  | [] => []
  | sel :: rest =>
    match doc.select_one sel with
    | some t => t.select "tbody tr, tr.Table__TR"
    | none => alt_table_go doc rest

def alt_table_items {α : Type} (doc : HDoc α) : List α :=
  alt_table_go doc alt_table_selectors

def direct_selectors : List String :=
  [".Table__TR", "div[class*=\"event-cell\"]", "div[class*=\"game-row\"]",
   "div[class*=\"schedule-row\"]", "li[class*=\"schedule-item\"]"]

/-- Lines 270-283: the loop breaks at the first selector yielding a non-empty
element list. -/
def direct_go {α : Type} (doc : HDoc α) : List String → List α
  | [] => []
  | sel :: rest =>
    let items := doc.select sel
    if items.isEmpty then direct_go doc rest else items

def direct_items {α : Type} (doc : HDoc α) : List α :=
  direct_go doc direct_selectors

/-- Lines 250-289: the schedule rows the scraper will process; `[]` is the
"no schedule items found" outcome, in which `scrape_schedule` returns the
(empty) games list (lines 286-289, no fallback data). -/
def find_schedule_items {α : Type} (doc : HDoc α) : List α :=
  let items1 := primary_items doc
  let items2 := if items1.isEmpty then alt_table_items doc else items1
  if items2.isEmpty then direct_items doc else items2

/-! ### Per-row record assembly (Script.py lines 417-539)

`RawRow` is the state of the per-row local variables at line 430, after the
extraction cascades: `date_str` non-empty (rows without one were skipped at
line 349), `opponent` as extracted (possibly the `"Unknown Opponent"`
sentinel, prefixes not yet stripped), the extracted `location`, `time_str`
and `broadcast` (empty string when no strategy yielded text). -/

structure RawRow where
  date_str : String
  opponent : String
  is_home : Bool
  location : String
  time_str : String
  broadcast : String
deriving DecidableEq

/-- Lines 432-438: default an empty location to the home venue for home
games, or to `"<opponent> venue"` for away games with a known opponent. -/
def resolve_location (location : String) (is_home : Bool) (opponent : String) : String :=
  if location = "" then
    if is_home then "Yale Bowl, New Haven, CT"
    else if opponent ≠ "Unknown Opponent" then opponent ++ " venue"
    else location
  else location

/-- Line 489: `re.sub(r'^(?:vs\.?|versus|at|@)\s+', '', opponent)` — try the
alternatives in the regex's order (with the optional dot taken greedily),
each needing at least one following whitespace character, and drop the first
match at the start of the string. -/
def strip_lead (pfx : List Char) (cs : List Char) : Option (List Char) :=
  if pfx.isPrefixOf cs then
    let p := (cs.drop pfx.length).span (·.isWhitespace)
    if p.1.isEmpty then none else some p.2
  else none

def strip_opp_marker (cs : List Char) : List Char :=
  match strip_lead ['v', 's', '.'] cs with
  | some r => r
  | none =>
    match strip_lead ['v', 's'] cs with
    | some r => r
    | none =>
      match strip_lead ['v', 'e', 'r', 's', 'u', 's'] cs with
      | some r => r
      | none =>
        match strip_lead ['a', 't'] cs with
        | some r => r
        | none =>
          match strip_lead ['@'] cs with
          | some r => r
          | none => cs

/-- Line 489 with the trailing `.strip()`. -/
def clean_opponent (s : String) : String := trim_str ⟨strip_opp_marker s.data⟩

/-- `"yale" in text.lower()` (lines 492, 514, 532). -/
def contains_yale (s : String) : Bool := has_sub ['y', 'a', 'l', 'e'] (to_lower s)

/-- The `game_info` dict of lines 519-529. -/
structure GameInfo where
  title : String
  start : DateTime
  stop : DateTime
  location : String
  broadcast : String
  is_home : Bool
  opponent : String
  date_str : String
  time_str : String
deriving DecidableEq

/-- Lines 431-539 for one schedule row: location/time/broadcast defaulting,
opponent cleanup, the two opponent-validity skips, date/time normalization
(skipping the row when it fails) and record assembly with the fixed
3.5-hour duration.  `stop` is the dict's `end` field (a Lean keyword).
`none` means the row contributes no record. -/
def build_game (today_year today_month : Int) (r : RawRow) : Option GameInfo :=
  let location := resolve_location r.location r.is_home r.opponent
  let time_str := if r.time_str = "" then "TBA" else r.time_str
  let broadcast := if r.broadcast = "" then "TBA" else r.broadcast
  let opponent := clean_opponent r.opponent
  if contains_yale opponent then none
  else
    let title := if r.is_home then opponent ++ " at Yale" else "Yale at " ++ opponent
    match parse_date_time today_year today_month r.date_str (some time_str) with
    | none => none
    | some dt =>
      if opponent = "" ∨ opponent = "Unknown Opponent" ∨ contains_yale opponent then none
      else
        let title := if contains_yale title then title
          else if r.is_home then opponent ++ " at Yale" else "Yale at " ++ opponent
        some { title := title, start := dt, stop := add_minutes dt 210,
               location := location, broadcast := broadcast, is_home := r.is_home,
               opponent := opponent, date_str := r.date_str, time_str := time_str }

/-! ### Deduplication (Script.py lines 549-565) -/

def pad2 (n : Nat) : String :=
  ⟨[Nat.digitChar (n / 10 % 10), Nat.digitChar (n % 10)]⟩

def pad4 (n : Nat) : String :=
  ⟨[Nat.digitChar (n / 1000 % 10), Nat.digitChar (n / 100 % 10),
    Nat.digitChar (n / 10 % 10), Nat.digitChar (n % 10)]⟩

/-- `str(dt.date())`: the ISO `YYYY-MM-DD` rendering of a Python date (whose
components always satisfy `1 ≤ year ≤ 9999`, `1 ≤ month ≤ 12`, `1 ≤ day ≤ 31`,
so the fixed-width digit extraction is exact). -/
def date_iso (dt : DateTime) : String :=
  pad4 dt.year.toNat ++ "-" ++ pad2 dt.month.toNat ++ "-" ++ pad2 dt.day.toNat

/-- Line 555: `f"{game['start'].date()}_{game['opponent']}"`. -/
def game_id (g : GameInfo) : String := date_iso g.start ++ "_" ++ g.opponent

/-- Lines 550-563: keep a game iff its id string was not seen before; the
Python `set` is modelled by the list of ids added so far. -/
def dedup_go (seen : List String) : List GameInfo → List GameInfo
  | [] => []
  | g :: gs =>
    if game_id g ∈ seen then dedup_go seen gs
    else g :: dedup_go (game_id g :: seen) gs

def dedup_games (gs : List GameInfo) : List GameInfo := dedup_go [] gs

/-- The calendar date of a record's start together with its opponent — the
pair the spec says deduplication keys on. -/
def game_pair (g : GameInfo) : (Int × Int × Int) × String :=
  ((g.start.year, g.start.month, g.start.day), g.opponent)

/-- Follows the spec's words (§3, §8): collapse records sharing a
`(start date, opponent)` pair, keeping the first occurrence, preserving
order.  Used as the reference the string-keyed `dedup_games` is compared to. -/
def dedup_by_pair (seen : List ((Int × Int × Int) × String)) :
    List GameInfo → List GameInfo
  | [] => []
  | g :: gs =>
    if game_pair g ∈ seen then dedup_by_pair seen gs
    else g :: dedup_by_pair (game_pair g :: seen) gs

/-! ### Calendar building and the refresh entry point
(Script.py lines 567-626) -/

/-- An `ics.Event` as `create_calendar` fills it in (lines 578-597):
`location` stays unset (`none`) when the game's location text is empty. -/
structure CalEvent where
  name : String
  begin_at : DateTime
  end_at : DateTime
  location : Option String
  description : String
deriving DecidableEq

def event_of_game (g : GameInfo) : CalEvent :=
  { name := g.title, begin_at := g.start, end_at := g.stop,
    location := if g.location ≠ "" then some g.location else none,
    description :=
      (if g.broadcast ≠ "" then "Broadcast on: " ++ g.broadcast ++ "\n" else "") ++
      (if g.is_home then "Home Game" else "Away Game") }

/-- Lines 573-598: events for the games passing the completeness check of
lines 575-576 (`game['start']` is always present and truthy in a record the
scraper built, so only the opponent conditions remain). -/
def calendar_events (games : List GameInfo) : List CalEvent :=
  (games.filter (fun g => g.opponent ≠ "" ∧ g.opponent ≠ "Unknown Opponent")).map
    event_of_game

/-- `update_calendar` (lines 619-626) at the level of the persisted calendar
file: the file content is abstracted to the event list it serializes
(`none` = no file yet).  `create_calendar` is called unconditionally on the
scraped list and rewrites the file (lines 612-614), whatever the prior
content was. -/
def update_calendar_file (prior : Option (List CalEvent)) (scraped : List GameInfo) :
    Option (List CalEvent) :=
  some (calendar_events scraped)

/-- The `/season/<year>` route (lines 786-790), for contrast: it rebuilds the
calendar only when the scrape returned a non-empty list. -/
def set_season_file (prior : Option (List CalEvent)) (scraped : List GameInfo) :
    Option (List CalEvent) :=
  if scraped.isEmpty then prior else some (calendar_events scraped)

/-! ### Schedule validator -/

/-- Modelled from the spec: src/Script.py holds a repository revision with no
Schedule Validator (`update_calendar` accepts whatever `scrape_schedule`
returns); the validator of spec §4.5 lives in the repository's other
near-duplicate script revisions, which are not under src/.  Expected game
count per season: a lookup table with a fallback minimum for unlisted
seasons. -/
def expected_games (table : List (Nat × Nat)) (min_count : Nat) (season : Nat) : Nat :=
  match List.lookup season table with
  | some e => e
  | none => min_count

/-- Modelled from the spec (§4.5 check 3): number of distinct start dates. -/
def unique_dates (games : List GameInfo) : Nat :=
  ((games.map (fun g => (g.start.year, g.start.month, g.start.day))).dedup).length

/-- Modelled from the spec (§4.5 check 4): games carrying the normalizer's
synthetic fallback date. -/
def default_dated (fallback : Int × Int × Int) (games : List GameInfo) : Nat :=
  (games.filter (fun g => (g.start.year, g.start.month, g.start.day) = fallback)).length

/-- Modelled from the spec: `validate(games, season)` (§4.5), checks in order,
short-circuiting on first failure: non-empty; count ≥ expected-for-season;
unique dates ≥ 80% of count; at most one default-dated game. -/
def validate_schedule (table : List (Nat × Nat)) (min_count : Nat)
    (fallback : Int × Int × Int) (games : List GameInfo) (season : Nat) : Bool :=
  if games.isEmpty then false
  else if games.length < expected_games table min_count season then false
  else if unique_dates games * 5 < games.length * 4 then false
  else if 1 < default_dated fallback games then false
  else true

/-! ### Auxiliary notions used by the statements -/

/-- The id string of line 555, rebuilt from a `(date, opponent)` pair. -/
def pair_key (p : (Int × Int × Int) × String) : String :=
  pad4 p.1.1.toNat ++ "-" ++ pad2 p.1.2.1.toNat ++ "-" ++ pad2 p.1.2.2.toNat ++ "_" ++ p.2

/-- Date components within the ranges every Python `datetime` satisfies
(being the ranges under which `date_iso` is the exact `str(dt.date())`). -/
def date_ok (dt : DateTime) : Prop :=
  0 ≤ dt.year ∧ dt.year ≤ 9999 ∧ 0 ≤ dt.month ∧ dt.month ≤ 99 ∧ 0 ≤ dt.day ∧ dt.day ≤ 99

instance (dt : DateTime) : Decidable (date_ok dt) := by
  unfold date_ok; infer_instance

def pair_ok (p : (Int × Int × Int) × String) : Prop :=
  0 ≤ p.1.1 ∧ p.1.1 ≤ 9999 ∧ 0 ≤ p.1.2.1 ∧ p.1.2.1 ≤ 99 ∧ 0 ≤ p.1.2.2 ∧ p.1.2.2 ≤ 99

/-! ### Concrete fixtures for witnesses and counterexamples -/

def r_home : RawRow :=
  { date_str := "9/20/2025", opponent := "Harvard", is_home := true,
    location := "", time_str := "", broadcast := "" }

def g_home : GameInfo :=
  { title := "Harvard at Yale", start := ⟨2025, 9, 20, 13, 0⟩,
    stop := ⟨2025, 9, 20, 16, 30⟩, location := "Yale Bowl, New Haven, CT",
    broadcast := "TBA", is_home := true, opponent := "Harvard",
    date_str := "9/20/2025", time_str := "TBA" }

def r_away : RawRow :=
  { date_str := "9/20/2025", opponent := "Harvard", is_home := false,
    location := "", time_str := "", broadcast := "" }

def g_away : GameInfo :=
  { title := "Yale at Harvard", start := ⟨2025, 9, 20, 13, 0⟩,
    stop := ⟨2025, 9, 20, 16, 30⟩, location := "Harvard venue",
    broadcast := "TBA", is_home := false, opponent := "Harvard",
    date_str := "9/20/2025", time_str := "TBA" }

def g_oct : GameInfo :=
  { title := "Yale at Princeton", start := ⟨2025, 10, 4, 13, 0⟩,
    stop := ⟨2025, 10, 4, 16, 30⟩, location := "Princeton venue",
    broadcast := "TBA", is_home := false, opponent := "Princeton",
    date_str := "10/4/2025", time_str := "TBA" }

def r_bad_date : RawRow :=
  { date_str := "hello", opponent := "Harvard", is_home := true,
    location := "", time_str := "", broadcast := "" }

def ev0 : CalEvent := event_of_game g_home

def fb0 : Int × Int × Int := (2025, 9, 1)

/-- A document whose primary schedule table has exactly two rows and whose
other selectors match nothing. -/
def doc_two : HDoc Nat :=
  { select_one := fun sel =>
      if sel = "table.Table" then
        some { select := fun sel2 => if sel2 = "tbody tr" then [1, 2] else [] }
      else none,
    select := fun _ => [] }

/-- A document with no primary table, whose first alternative-table selector
finds a container with zero rows while the second alternative-table selector
holds five matching rows: the detector's alternative-table loop breaks at the
first existing container, so those five rows are never consulted. -/
def doc_skip : HDoc Nat :=
  { select_one := fun sel =>
      if sel = "table.schedule-table" then some { select := fun _ => [] }
      else if sel = "table.schedule" then
        some { select := fun sel2 =>
          if sel2 = "tbody tr, tr.Table__TR" then [1, 2, 3, 4, 5] else [] }
      else none,
    select := fun _ => [] }

/-! ## Theorems -/

/-- C7: for every time text that is `None`, empty, or (case-insensitively)
`TBA` or `TBD`, the normalizer resolves the time to the default kickoff
hour 13 and minute 0 (Script.py lines 165, 193-195). -/
theorem parse_time_tba_default (t : Option String)
    (h : t = none ∨ t = some "" ∨
      ∃ s, t = some s ∧ (to_lower s = "tba" ∨ to_lower s = "tbd")) :
    parse_time t = some (13, 0) := by
  rcases h with rfl | rfl | ⟨s, rfl, hs⟩
  · rfl
  · rfl
  · have hg : tba_guard s = false := by
      unfold tba_guard
      rcases hs with hs | hs <;> simp [hs]
    simp [parse_time, hg]

theorem parse_time_tba_default_witness : parse_time (some "TBA") = some (13, 0) :=
  parse_time_tba_default (some "TBA") (Or.inr (Or.inr ⟨"TBA", rfl, Or.inl (by decide)⟩))

/-- C3 counterexample: the time text `"5:00"` carries a numeric hour 5 < 8
and no AM/PM marker, yet the normalizer resolves it to hour 5, not to the
PM hour 17 the claim asserts — no `hour<8 → PM` heuristic exists in the
code (Script.py lines 164-195). -/
theorem no_marker_small_hour_cex :
    parse_time (some "5:00") = some (5, 0) ∧ parse_time (some "5:00") ≠ some (17, 0) := by
  decide

/-- C3 (amended): for every time text that reaches the numeric branch and
yields hour `h`, the resolved hour is `h` itself when neither marker is
present (no PM assumption for small hours), `h+12` with a PM marker and
`h < 12`, and `0` with an AM marker and `h = 12` (Script.py lines 164-192). -/
theorem time_marker_adjust (s : String) (h mi : Int)
    (hg : tba_guard s = true)
    (hhm : time_hm_raw (time_refined s) = some (h, mi)) :
    parse_time (some s) = some (time_adjust (time_refined s) h, mi)
    ∧ (has_sub ['P', 'M'] (time_refined s) = false →
        has_sub ['A', 'M'] (time_refined s) = false → time_adjust (time_refined s) h = h)
    ∧ (has_sub ['P', 'M'] (time_refined s) = true →
        has_sub ['A', 'M'] (time_refined s) = false → h < 12 →
        time_adjust (time_refined s) h = h + 12)
    ∧ (has_sub ['A', 'M'] (time_refined s) = true → h = 12 →
        time_adjust (time_refined s) h = 0) := by
  refine ⟨by simp [parse_time, hg, hhm], ?_, ?_, ?_⟩
  · intro hp ha
    simp [time_adjust, hp, ha]
  · intro hp ha hlt
    simp [time_adjust, hp, ha, hlt]
  · intro ha h12
    subst h12
    simp [time_adjust, ha]

theorem time_marker_adjust_witness : parse_time (some "7:30 PM") = some (19, 30) := by
  have H := time_marker_adjust "7:30 PM" 7 30 (by decide) (by decide)
  rw [H.1, H.2.2.1 (by decide) (by decide) (by decide)]
  decide

/-- C1 counterexample: with a one-event calendar file persisted, a refresh
whose scrape yields no games rewrites the file with an empty calendar
instead of leaving it unchanged — `update_calendar` (Script.py lines
619-626) calls `create_calendar` unconditionally, and `create_calendar`
(lines 612-614) overwrites the file. -/
theorem empty_scrape_overwrites_cex :
    update_calendar_file (some [ev0]) [] = some [] ∧
    update_calendar_file (some [ev0]) [] ≠ some [ev0] := by
  decide

/-- C1 (amended): whenever the persisted calendar is non-empty and the scrape
yields no games, `update_calendar` overwrites the file with an empty
calendar; the prior artifact is not preserved (only the manual `/season`
route skips rebuilding on an empty list). -/
theorem update_calendar_empty_overwrite (prior : List CalEvent) (h : prior ≠ []) :
    update_calendar_file (some prior) [] = some [] ∧
    update_calendar_file (some prior) [] ≠ some prior ∧
    set_season_file (some prior) [] = some prior := by
  refine ⟨rfl, fun hc => h (Option.some.inj hc).symm, rfl⟩

theorem update_calendar_empty_overwrite_witness :
    update_calendar_file (some [ev0, ev0]) [] = some [] ∧
    update_calendar_file (some [ev0, ev0]) [] ≠ some [ev0, ev0] ∧
    set_season_file (some [ev0, ev0]) [] = some [ev0, ev0] :=
  update_calendar_empty_overwrite [ev0, ev0] (by decide)

/-- C6: the schedule validator rejects any game list shorter than the
expected count for the season (lookup table with a fallback minimum for
unlisted seasons); in particular a 3-game list for a season expecting 10 is
rejected.  The validator is modelled from spec §4.5, being absent from the
revision in src/Script.py. -/
theorem validator_count_reject (table : List (Nat × Nat)) (min_count : Nat)
    (fallback : Int × Int × Int) (games : List GameInfo) (season : Nat)
    (h : games.length < expected_games table min_count season) :
    validate_schedule table min_count fallback games season = false := by
  simp [validate_schedule, h]

theorem validator_count_reject_witness :
    validate_schedule [(2024, 10)] 7 fb0 [g_home, g_away, g_home] 2024 = false :=
  validator_count_reject [(2024, 10)] 7 fb0 [g_home, g_away, g_home] 2024 (by decide)

theorem list_isEmpty_iff {α : Type} (l : List α) : l.isEmpty = true ↔ l = [] := by
  cases l <;> simp

theorem direct_go_eq_nil_iff {α : Type} (doc : HDoc α) (sels : List String) :
    direct_go doc sels = [] ↔ ∀ sel ∈ sels, doc.select sel = [] := by
  induction sels with
  | nil => simp [direct_go]
  | cons s rest ih =>
    simp only [direct_go]
    cases h : (doc.select s).isEmpty
    · have h' : doc.select s ≠ [] := by
        intro he
        rw [(list_isEmpty_iff (doc.select s)).mpr he] at h
        exact absurd h (by simp)
      simp [h, h']
    · have h' : doc.select s = [] := (list_isEmpty_iff (doc.select s)).mp h
      simp [h, h', ih]

theorem alt_table_go_skips {α : Type} (doc : HDoc α) (pre : List String) :
    ∀ (sel : String) (post : List String) (t : HTable α),
    (∀ s ∈ pre, doc.select_one s = none) → doc.select_one sel = some t →
    alt_table_go doc (pre ++ sel :: post) = t.select "tbody tr, tr.Table__TR" := by
  induction pre with
  | nil =>
    intro sel post t _ hsel
    simp only [List.nil_append, alt_table_go, hsel]
  | cons s pre ih =>
    intro sel post t hpre hsel
    have hs : doc.select_one s = none := hpre s (by simp)
    simp only [List.cons_append, alt_table_go, hs]
    exact ih sel post t (fun x hx => hpre x (by simp [hx])) hsel

theorem alt_table_go_all_none {α : Type} (doc : HDoc α) (sels : List String)
    (hall : ∀ s ∈ sels, doc.select_one s = none) : alt_table_go doc sels = [] := by
  induction sels with
  | nil => rfl
  | cons s rest ih =>
    have hs : doc.select_one s = none := hall s (by simp)
    simp only [alt_table_go, hs]
    exact ih (fun x hx => hall x (by simp [hx]))

/-- C4 (amended): the structure detector accepts a container/row pattern as
soon as the stage that consults it yields at least one matched element
(there is no `>3` minimum), and reports no schedule rows exactly when all
three stages yield nothing — where the primary stage takes the rows of
`table.Table` when that table exists, the alternative-table stage takes the
rows of the first alternative selector whose container exists (even when
those rows number zero, never consulting later alternative containers), and
the direct stage takes the first direct selector matching any element
(Script.py lines 250-289). -/
theorem detector_accepts_nonempty {α : Type} (doc : HDoc α) :
    (find_schedule_items doc = [] ↔
      primary_items doc = [] ∧ alt_table_items doc = [] ∧ direct_items doc = [])
    ∧ (primary_items doc ≠ [] → find_schedule_items doc = primary_items doc)
    ∧ (primary_items doc = [] → alt_table_items doc ≠ [] →
        find_schedule_items doc = alt_table_items doc)
    ∧ (primary_items doc = [] → alt_table_items doc = [] →
        find_schedule_items doc = direct_items doc)
    ∧ (∀ t : HTable α, doc.select_one "table.Table" = some t →
        primary_items doc = t.select "tbody tr")
    ∧ (doc.select_one "table.Table" = none → primary_items doc = [])
    ∧ (∀ (pre : List String) (sel : String) (post : List String) (t : HTable α),
        alt_table_selectors = pre ++ sel :: post →
        (∀ s ∈ pre, doc.select_one s = none) → doc.select_one sel = some t →
        alt_table_items doc = t.select "tbody tr, tr.Table__TR")
    ∧ ((∀ s ∈ alt_table_selectors, doc.select_one s = none) → alt_table_items doc = [])
    ∧ (direct_items doc = [] ↔ ∀ sel ∈ direct_selectors, doc.select sel = []) := by
  have hp := list_isEmpty_iff (primary_items doc)
  have ha := list_isEmpty_iff (alt_table_items doc)
  refine ⟨?_, ?_, ?_, ?_, ?_, ?_, ?_, ?_, direct_go_eq_nil_iff doc direct_selectors⟩
  · unfold find_schedule_items
    cases hbp : (primary_items doc).isEmpty <;>
      cases hba : (alt_table_items doc).isEmpty <;> simp_all
  · unfold find_schedule_items
    cases hbp : (primary_items doc).isEmpty <;>
      cases hba : (alt_table_items doc).isEmpty <;> simp_all
  · unfold find_schedule_items
    cases hbp : (primary_items doc).isEmpty <;>
      cases hba : (alt_table_items doc).isEmpty <;> simp_all
  · unfold find_schedule_items
    cases hbp : (primary_items doc).isEmpty <;>
      cases hba : (alt_table_items doc).isEmpty <;> simp_all
  · intro t ht
    simp [primary_items, ht]
  · intro hn
    simp [primary_items, hn]
  · intro pre sel post t heq hpre hsel
    unfold alt_table_items
    rw [heq]
    exact alt_table_go_skips doc pre sel post t hpre hsel
  · intro hall
    exact alt_table_go_all_none doc alt_table_selectors hall

/-- C4 counterexample: a document whose primary schedule table matches
exactly 2 rows (and whose every other pattern matches nothing, so every
container/row combination yields at most 3 elements) is accepted with those
2 rows instead of producing the `NotFound`/no-rows outcome the claim
requires. -/
theorem detector_threshold_cex :
    primary_items doc_two = [1, 2] ∧ (primary_items doc_two).length ≤ 3 ∧
    alt_table_items doc_two = [] ∧ direct_items doc_two = [] ∧
    find_schedule_items doc_two = [1, 2] ∧ find_schedule_items doc_two ≠ [] := by
  decide

theorem detector_accepts_nonempty_witness :
    find_schedule_items doc_two = [1, 2]
    ∧ alt_table_items doc_skip = []
    ∧ find_schedule_items doc_skip = []
    ∧ (doc_skip.select_one "table.schedule").map
        (fun t => t.select "tbody tr, tr.Table__TR") = some [1, 2, 3, 4, 5] := by
  have H2 := detector_accepts_nonempty doc_two
  have HS := detector_accepts_nonempty doc_skip
  have halt : alt_table_items doc_skip = [] :=
    (HS.2.2.2.2.2.2.1 [] "table.schedule-table" ["table.schedule", ".Schedule__Table"]
      ⟨fun _ => []⟩ rfl (by simp) rfl).trans rfl
  refine ⟨?_, halt, ?_, by decide⟩
  · rw [H2.2.1 (by decide)]
    decide
  · exact HS.1.mpr ⟨by decide, halt, by decide⟩

/-- C2 counterexample: for the date text `"9/20/99"` the claim's pivot rule
(`yy > 50 → 1900 + yy`) demands year 1999, but the code (Script.py lines
87-90) adds 2000 to every two-digit year, resolving 2099. -/
theorem slash_year_pivot_cex :
    parse_date_time 2024 10 "9/20/99" (some "1:00 PM") = some ⟨2099, 9, 20, 13, 0⟩
    ∧ (⟨2099, 9, 20, 13, 0⟩ : DateTime).year ≠ 1999 := by
  decide

/-- C2 (amended): for every slash-delimited date text whose third component
parses as a two-digit year `yy` (with month and day parsing too), the
resolved year is `2000 + yy` for all `0 ≤ yy < 100` — there is no `>50`
pivot to 1900 (Script.py lines 82-92). -/
theorem slash_two_digit_year (ty tm : Int) (s : String) (m d yy : Int)
    (hm : py_int ((split_ch '/' (trim_str (weekday_fix s))).getD 0 "") = some m)
    (hd : py_int ((split_ch '/' (trim_str (weekday_fix s))).getD 1 "") = some d)
    (hlen : 2 < (split_ch '/' (trim_str (weekday_fix s))).length)
    (hne : trim_str ((split_ch '/' (trim_str (weekday_fix s))).getD 2 "") ≠ "")
    (hy : py_int ((split_ch '/' (trim_str (weekday_fix s))).getD 2 "") = some yy)
    (hy0 : 0 ≤ yy) (hy100 : yy < 100)
    (hslash : (weekday_fix s).data.contains '/' = true) :
    parse_slash (weekday_fix s) = (some m, some d, some (yy + 2000))
    ∧ ∀ (t : Option String) (dt : DateTime),
        parse_date_time ty tm s t = some dt → dt.year = yy + 2000 := by
  have hps : parse_slash (weekday_fix s) = (some m, some d, some (yy + 2000)) := by
    simp only [parse_slash]
    rw [hm]
    dsimp only
    rw [hd]
    dsimp only
    rw [if_pos ⟨hlen, hne⟩, hy]
    dsimp only
    rw [if_pos hy100]
  refine ⟨hps, ?_⟩
  intro t dt hpd
  unfold parse_date_time at hpd
  rw [show date_fields (weekday_fix s) = (some m, some d, some (yy + 2000)) from by
        unfold date_fields; rw [if_pos hslash]; exact hps] at hpd
  dsimp only at hpd
  cases hpt : parse_time t with
  | none => rw [hpt] at hpd; simp at hpd
  | some p =>
    obtain ⟨h', mi'⟩ := p
    rw [hpt] at hpd
    dsimp only at hpd
    unfold mk_datetime at hpd
    by_cases hok : datetime_ok (yy + 2000) m d h' mi'
    · rw [if_pos hok] at hpd
      obtain rfl := Option.some.inj hpd
      rfl
    · rw [if_neg hok] at hpd
      simp at hpd

theorem slash_two_digit_year_witness :
    parse_slash (weekday_fix "9/20/99") = (some 9, some 20, some (99 + 2000))
    ∧ (⟨2099, 9, 20, 13, 0⟩ : DateTime).year = 99 + 2000 := by
  have H := slash_two_digit_year 2024 10 "9/20/99" 9 20 99 (by decide) (by decide)
    (by decide) (by decide) (by decide) (by decide) (by decide) (by decide)
  exact ⟨H.1, H.2 (some "1:00 PM") ⟨2099, 9, 20, 13, 0⟩ (by decide)⟩

/-- C9: a date text from which no month/day can be extracted makes the
normalizer return its failure value (`None`), an impossible calendar date
(such as April 31) makes `datetime.datetime` fail and the normalizer again
return `None`, and a row whose normalization fails contributes no record —
no synthetic fallback date is substituted (Script.py lines 196-213 and
502-508). -/
theorem unparsable_date_row_skipped :
    (∀ (ty tm : Int) (s : String) (t : Option String),
      (date_fields (weekday_fix s)).1 = none ∨ (date_fields (weekday_fix s)).2.1 = none →
      parse_date_time ty tm s t = none)
    ∧ (∀ y m d h mi : Int, ¬ datetime_ok y m d h mi → mk_datetime y m d h mi = none)
    ∧ (∀ (ty tm : Int) (r : RawRow),
        parse_date_time ty tm r.date_str
          (some (if r.time_str = "" then "TBA" else r.time_str)) = none →
        build_game ty tm r = none) := by
  refine ⟨?_, ?_, ?_⟩
  · intro ty tm s t hnone
    unfold parse_date_time
    rcases hdf : date_fields (weekday_fix s) with ⟨m?, d?, y?⟩
    rw [hdf] at hnone
    rcases m? with _ | mv
    · rfl
    · rcases d? with _ | dv
      · rfl
      · simp at hnone
  · intro y m d h mi hbad
    unfold mk_datetime
    rw [if_neg hbad]
  · intro ty tm r hpd
    simp [build_game, hpd]

theorem unparsable_date_row_skipped_witness :
    parse_date_time 2024 10 "hello" (some "TBA") = none
    ∧ mk_datetime 2025 4 31 13 0 = none
    ∧ build_game 2024 10 r_bad_date = none := by
  have H := unparsable_date_row_skipped
  exact ⟨H.1 2024 10 "hello" (some "TBA") (by decide),
    H.2.1 2025 4 31 13 0 (by decide),
    H.2.2 2024 10 r_bad_date (by decide)⟩

/-- C10: every game record the scraper produces has non-empty `time_str` and
`broadcast` fields; an empty extracted time or broadcast is replaced by the
sentinel `"TBA"` before the record is assembled (Script.py lines 470-473
and 484-486). -/
theorem produced_time_broadcast_defaults (ty tm : Int) (r : RawRow) (g : GameInfo)
    (h : build_game ty tm r = some g) :
    g.time_str ≠ "" ∧ g.broadcast ≠ "" ∧
    (r.time_str = "" → g.time_str = "TBA") ∧ (r.broadcast = "" → g.broadcast = "TBA") := by
  unfold build_game at h
  dsimp only at h
  by_cases hy : contains_yale (clean_opponent r.opponent) = true
  · rw [if_pos hy] at h
    exact absurd h (by simp)
  · rw [if_neg hy] at h
    cases hpd : parse_date_time ty tm r.date_str
        (some (if r.time_str = "" then "TBA" else r.time_str)) with
    | none => rw [hpd] at h; simp at h
    | some dt =>
      rw [hpd] at h
      dsimp only at h
      by_cases hv : clean_opponent r.opponent = "" ∨ clean_opponent r.opponent = "Unknown Opponent"
          ∨ contains_yale (clean_opponent r.opponent) = true
      · rw [if_pos hv] at h
        exact absurd h (by simp)
      · rw [if_neg hv] at h
        obtain rfl := Option.some.inj h
        refine ⟨?_, ?_, ?_, ?_⟩
        · by_cases hts : r.time_str = "" <;> simp [hts]
        · by_cases hbs : r.broadcast = "" <;> simp [hbs]
        · intro hts; simp [hts]
        · intro hbs; simp [hbs]

theorem produced_time_broadcast_defaults_witness :
    g_home.time_str = "TBA" ∧ g_home.broadcast = "TBA" := by
  have H := produced_time_broadcast_defaults 2025 9 r_home g_home (by decide)
  exact ⟨H.2.2.1 rfl, H.2.2.2 rfl⟩

/-- C5 counterexample: a produced away-game record with no explicitly
extracted location gets the location `"<opponent> venue"`, not the empty
string the claim asserts (Script.py lines 436-438). -/
theorem away_location_cex :
    build_game 2025 9 r_away = some g_away ∧ g_away.location = "Harvard venue"
    ∧ g_away.location ≠ "" := by
  decide

/-- C5 (amended): in a produced record with no explicitly extracted
location, the location is the fixed home venue string when `is_home` holds,
and `"<extracted opponent> venue"` when it does not (Script.py lines
430-438; the extracted opponent of an away record in a produced game is
never the `"Unknown Opponent"` sentinel, which would leave it empty). -/
theorem location_defaults (ty tm : Int) (r : RawRow) (g : GameInfo)
    (h : build_game ty tm r = some g) (hloc : r.location = "") :
    (r.is_home = true → g.location = "Yale Bowl, New Haven, CT")
    ∧ (r.is_home = false → g.location = r.opponent ++ " venue") := by
  by_cases hop : r.opponent = "Unknown Opponent"
  · exfalso
    have e1 : clean_opponent "Unknown Opponent" = "Unknown Opponent" := by decide
    have e2 : contains_yale "Unknown Opponent" = false := by decide
    simp [build_game, hop, e1, e2] at h
    cases hpd : parse_date_time ty tm r.date_str
        (some (if r.time_str = "" then "TBA" else r.time_str)) with
    | none => rw [hpd] at h; simp at h
    | some dt => rw [hpd] at h; simp at h
  · unfold build_game at h
    dsimp only at h
    by_cases hy : contains_yale (clean_opponent r.opponent) = true
    · rw [if_pos hy] at h
      exact absurd h (by simp)
    · rw [if_neg hy] at h
      cases hpd : parse_date_time ty tm r.date_str
          (some (if r.time_str = "" then "TBA" else r.time_str)) with
      | none => rw [hpd] at h; simp at h
      | some dt =>
        rw [hpd] at h
        dsimp only at h
        by_cases hv : clean_opponent r.opponent = "" ∨ clean_opponent r.opponent = "Unknown Opponent"
            ∨ contains_yale (clean_opponent r.opponent) = true
        · rw [if_pos hv] at h
          exact absurd h (by simp)
        · rw [if_neg hv] at h
          obtain rfl := Option.some.inj h
          constructor <;> intro hh <;> simp [resolve_location, hloc, hh, hop]

theorem location_defaults_witness :
    g_home.location = "Yale Bowl, New Haven, CT" ∧ g_away.location = "Harvard" ++ " venue" := by
  have H1 := location_defaults 2025 9 r_home g_home (by decide) rfl
  have H2 := location_defaults 2025 9 r_away g_away (by decide) rfl
  exact ⟨H1.1 rfl, H2.2 rfl⟩

theorem str_data_append (s t : String) : (s ++ t).data = s.data ++ t.data := rfl

theorem digit_char_inj :
    ∀ a b : Fin 10, Nat.digitChar a.val = Nat.digitChar b.val → a = b := by
  decide

theorem digit_char_inj_nat (a b : Nat) (ha : a < 10) (hb : b < 10)
    (h : Nat.digitChar a = Nat.digitChar b) : a = b :=
  congrArg Fin.val (digit_char_inj ⟨a, ha⟩ ⟨b, hb⟩ h)

theorem pair_key_inj (p q : (Int × Int × Int) × String) (hp : pair_ok p) (hq : pair_ok q)
    (h : pair_key p = pair_key q) : p = q := by
  obtain ⟨⟨y1, m1, d1⟩, o1⟩ := p
  obtain ⟨⟨y2, m2, d2⟩, o2⟩ := q
  simp only [pair_ok] at hp hq
  obtain ⟨hy1, hy1b, hm1, hm1b, hd1, hd1b⟩ := hp
  obtain ⟨hy2, hy2b, hm2, hm2b, hd2, hd2b⟩ := hq
  have h' := congrArg String.data h
  have dash : ("-" : String).data = ['-'] := rfl
  have und : ("_" : String).data = ['_'] := rfl
  simp only [pair_key, str_data_append, pad4, pad2, dash, und,
    List.cons_append, List.nil_append, List.cons.injEq] at h'
  obtain ⟨e1, e2, e3, e4, -, e5, e6, -, e7, e8, -, eo⟩ := h'
  have ten : (0 : Nat) < 10 := by norm_num
  have f1 := digit_char_inj_nat _ _ (Nat.mod_lt _ ten) (Nat.mod_lt _ ten) e1
  have f2 := digit_char_inj_nat _ _ (Nat.mod_lt _ ten) (Nat.mod_lt _ ten) e2
  have f3 := digit_char_inj_nat _ _ (Nat.mod_lt _ ten) (Nat.mod_lt _ ten) e3
  have f4 := digit_char_inj_nat _ _ (Nat.mod_lt _ ten) (Nat.mod_lt _ ten) e4
  have f5 := digit_char_inj_nat _ _ (Nat.mod_lt _ ten) (Nat.mod_lt _ ten) e5
  have f6 := digit_char_inj_nat _ _ (Nat.mod_lt _ ten) (Nat.mod_lt _ ten) e6
  have f7 := digit_char_inj_nat _ _ (Nat.mod_lt _ ten) (Nat.mod_lt _ ten) e7
  have f8 := digit_char_inj_nat _ _ (Nat.mod_lt _ ten) (Nat.mod_lt _ ten) e8
  have hy : y1 = y2 := by omega
  have hm : m1 = m2 := by omega
  have hd : d1 = d2 := by omega
  have ho : o1 = o2 := by
    cases o1
    cases o2
    cases eo
    rfl
  rw [hy, hm, hd, ho]

theorem game_pair_ok (g : GameInfo) (h : date_ok g.start) : pair_ok (game_pair g) := h

theorem game_id_eq_pair_key (g : GameInfo) : game_id g = pair_key (game_pair g) := rfl

theorem dedup_go_eq_pair (gs : List GameInfo) :
    ∀ seenP : List ((Int × Int × Int) × String),
    (∀ g ∈ gs, date_ok g.start) → (∀ p ∈ seenP, pair_ok p) →
    dedup_go (seenP.map pair_key) gs = dedup_by_pair seenP gs := by
  induction gs with
  | nil => intro seenP _ _; rfl
  | cons g gs ih =>
    intro seenP hgs hseen
    have hg : date_ok g.start := hgs g (by simp)
    have hgok : pair_ok (game_pair g) := game_pair_ok g hg
    have hmem : (game_id g ∈ seenP.map pair_key) ↔ game_pair g ∈ seenP := by
      rw [game_id_eq_pair_key]
      constructor
      · intro hm
        obtain ⟨p, hpmem, hpe⟩ := List.mem_map.mp hm
        rw [← pair_key_inj p (game_pair g) (hseen p hpmem) hgok hpe]
        exact hpmem
      · intro hm
        exact List.mem_map_of_mem _ hm
    have htail : ∀ x ∈ gs, date_ok x.start := fun x hx => hgs x (by simp [hx])
    simp only [dedup_go, dedup_by_pair]
    by_cases hm : game_pair g ∈ seenP
    · rw [if_pos (hmem.mpr hm), if_pos hm]
      exact ih seenP htail hseen
    · rw [if_neg (fun c => hm (hmem.mp c)), if_neg hm]
      have hseen' : ∀ p ∈ game_pair g :: seenP, pair_ok p := by
        intro p hp
        rcases List.mem_cons.mp hp with rfl | hp'
        · exact hgok
        · exact hseen p hp'
      have := ih (game_pair g :: seenP) htail hseen'
      rw [List.map_cons, ← game_id_eq_pair_key] at this
      rw [this]

theorem dedup_by_pair_sublist (gs : List GameInfo) :
    ∀ seen, (dedup_by_pair seen gs).Sublist gs := by
  induction gs with
  | nil => intro seen; simp [dedup_by_pair]
  | cons g gs ih =>
    intro seen
    simp only [dedup_by_pair]
    split
    · exact (ih seen).cons g
    · exact (ih (game_pair g :: seen)).cons₂ g

theorem dedup_by_pair_not_seen (gs : List GameInfo) :
    ∀ seen g', g' ∈ dedup_by_pair seen gs → game_pair g' ∉ seen := by
  induction gs with
  | nil => intro seen g' h; simp [dedup_by_pair] at h
  | cons g gs ih =>
    intro seen g' h
    simp only [dedup_by_pair] at h
    split at h
    · exact ih seen g' h
    · rcases List.mem_cons.mp h with rfl | hm
      · assumption
      · intro hs
        exact ih (game_pair g :: seen) g' hm (List.mem_cons_of_mem _ hs)

theorem dedup_by_pair_pairwise (gs : List GameInfo) :
    ∀ seen, List.Pairwise (fun a b => game_pair a ≠ game_pair b) (dedup_by_pair seen gs) := by
  induction gs with
  | nil => intro seen; simp [dedup_by_pair]
  | cons g gs ih =>
    intro seen
    simp only [dedup_by_pair]
    split
    · exact ih seen
    · refine List.Pairwise.cons ?_ (ih (game_pair g :: seen))
      intro b hb he
      exact dedup_by_pair_not_seen gs _ b hb (he ▸ List.mem_cons_self _ _)

theorem dedup_by_pair_covers (gs : List GameInfo) :
    ∀ seen g, g ∈ gs → game_pair g ∉ seen →
    ∃ g' ∈ dedup_by_pair seen gs, game_pair g' = game_pair g := by
  induction gs with
  | nil => intro seen g h; simp at h
  | cons a gs ih =>
    intro seen g hmem hns
    simp only [dedup_by_pair]
    rcases List.mem_cons.mp hmem with rfl | hg
    · rw [if_neg hns]
      exact ⟨g, by simp⟩
    · by_cases ha : game_pair a ∈ seen
      · rw [if_pos ha]
        exact ih seen g hg hns
      · rw [if_neg ha]
        by_cases hpe : game_pair g = game_pair a
        · exact ⟨a, by simp, hpe.symm⟩
        · have hns' : game_pair g ∉ game_pair a :: seen := by
            intro hc
            rcases List.mem_cons.mp hc with hc' | hc'
            · exact hpe hc'
            · exact hns hc'
          obtain ⟨g', hg', he'⟩ := ih (game_pair a :: seen) g hg hns'
          exact ⟨g', List.mem_cons_of_mem _ hg', he'⟩

/-- C8: on every candidate list, the code's string-keyed deduplication equals
the spec's `(start date, opponent)`-pair deduplication keeping first
occurrences in order: the result carries pairwise-distinct pairs, is a
sublist of the input (preserving order of first occurrences), and contains a
representative of every input record's pair (Script.py lines 549-565; the
`date_ok` bounds hold for every Python `datetime`). -/
theorem dedup_first_occurrence (gs : List GameInfo) (hok : ∀ g ∈ gs, date_ok g.start) :
    dedup_games gs = dedup_by_pair [] gs
    ∧ List.Pairwise (fun a b => game_pair a ≠ game_pair b) (dedup_games gs)
    ∧ (dedup_games gs).Sublist gs
    ∧ ∀ g ∈ gs, ∃ g' ∈ dedup_games gs, game_pair g' = game_pair g := by
  have he : dedup_games gs = dedup_by_pair [] gs := by
    have := dedup_go_eq_pair gs [] hok (by simp)
    simpa [dedup_games] using this
  refine ⟨he, he ▸ dedup_by_pair_pairwise gs [], he ▸ dedup_by_pair_sublist gs [], ?_⟩
  intro g hg
  rw [he]
  exact dedup_by_pair_covers gs [] g hg (by simp)

theorem dedup_first_occurrence_witness :
    dedup_games [g_home, g_away, g_oct] = dedup_by_pair [] [g_home, g_away, g_oct]
    ∧ dedup_games [g_home, g_away, g_oct] = [g_home, g_oct] := by
  have H := dedup_first_occurrence [g_home, g_away, g_oct]
    (by intro g hg; fin_cases hg <;> decide)
  exact ⟨H.1, by decide⟩
